import Mathlib

/-!
Shallow embedding of the rspin image viewer core (src/image_loader.rs and
src/wayland.rs) for checking the natural-language specification.

Modelling conventions:
* `u32` / `usize` values are `Nat`; `i32` values are `Int`.
* `f32` / `f64` arithmetic is modelled over `ℚ` with exact arithmetic
  (decimal literals such as `0.05`, `0.1`, `0.7` become the exact rationals
  `1/20`, `1/10`, `7/10`).  Every concrete counterexample below is chosen so
  that the corresponding IEEE-754 single/double computation is exact (all
  intermediate values are representable), so the verdicts transfer to the
  compiled program.
* Rust float-to-integer `as` casts truncate toward zero and saturate; they
  are modelled by explicit helper functions below.
* `f32::sqrt` (used only in the oversized-buffer recovery branch, which is
  proved unreachable after clamping, and in the startup size limiter where
  only structural properties of the result matter) is modelled by a dyadic
  under-approximation built on `Nat.sqrt`.
* Pixel buffers are length-plus-lookup pairs (`Buffer`): the Rust code only
  ever reads a buffer through `data[idx]` under an `idx + 3 < len` guard and
  writes every destination index it is claimed about, so a functional view
  is faithful.
-/

namespace Rspin

/-- Raw byte buffer: a length together with the byte stored at each index.
Models a Rust `Vec<u8>` (reads outside the program's own bounds checks never
occur in the embedded code paths). -/
structure Buffer where
  size : Nat
  byteAt : Nat → Nat

/-- Source `src/image_loader.rs` — `struct MipmapLevel`. -/
structure MipmapLevel where
  width : Nat
  height : Nat
  data : Buffer

/-- Source `src/image_loader.rs` — `struct ImageData` (fields used by the core). -/
structure ImageData where
  width : Nat
  height : Nat
  rgba_data : Buffer
  mipmaps : List MipmapLevel

/-! ### Numeric cast helpers (Rust `as` semantics over the ℚ model) -/

/-- Truncation toward zero of a rational (Rust float `trunc`). -/
def truncQ (q : ℚ) : ℤ :=
  if 0 ≤ q then ⌊q⌋ else -⌊-q⌋

/-- Rust `as u8` on a float: truncate toward zero, saturate to `[0, 255]`. -/
def u8ofQ (q : ℚ) : Nat :=
  min 255 (Int.toNat (truncQ q))

/-- Rust `as u32` on a float: truncate toward zero, saturate to `[0, 2^32-1]`. -/
def u32ofQ (q : ℚ) : Nat :=
  min (2 ^ 32 - 1) (Int.toNat (truncQ q))

/-- Rust `as i32` on a float: truncate toward zero, saturate to i32 range. -/
def i32ofQ (q : ℚ) : ℤ :=
  max (-(2 ^ 31)) (min (2 ^ 31 - 1) (truncQ q))

/-- Rust `as u32` on an `i32` value: two's-complement reinterpretation. -/
def u32ofI32 (v : ℤ) : Nat :=
  (v % 2 ^ 32).toNat

/-- Rust `f32::clamp` (exact ℚ model): `min hi (max lo x)` for `lo ≤ hi`. -/
def qclamp (x lo hi : ℚ) : ℚ :=
  min hi (max lo x)

/-- Rust `u32::clamp`. -/
def nclamp (x lo hi : Nat) : Nat :=
  min hi (max lo x)

/-- Exact value of `f32::EPSILON`. -/
def f32EPSILON : ℚ := 1 / 2 ^ 23

/-- Dyadic under-approximation of `f32::sqrt` (see the header note): the
result is a multiple of `2 ^ (-24)` whose square never exceeds the input. -/
def sqrtQ (q : ℚ) : ℚ :=
  (Nat.sqrt (Int.toNat ⌊q * 2 ^ 48⌋) : ℚ) / 2 ^ 24

/-! ### Mipmap pyramid builder — `src/image_loader.rs`, `generate_mipmaps` -/

/-- Guarded pixel read shared by the box filter and the bilinear sampler
(`get_pixel` in the source): byte of channel `c` at pixel `(sx, sy)` of a
`cw`-wide buffer, `0` when the `idx + 3 < len` guard fails. -/
def readPx (cur : Buffer) (cw sx sy c : Nat) : Nat :=
  let idx := (sy * cw + sx) * 4
  if idx + 3 < cur.size then cur.byteAt (idx + c) else 0

/-- The 2×2 box filter producing one destination byte of the next mipmap
level (`b/g/r/a` channel sums divided by 4, source coordinates clamped to the
source bounds). -/
def downsample (cw ch nw nh : Nat) (cur : Buffer) : Buffer :=
  ⟨nw * nh * 4, fun i =>
    let pix := i / 4
    let c := i % 4
    let x := pix % nw
    let y := pix / nw
    let sx0 := min (x * 2) (cw - 1)
    let sx1 := min (x * 2 + 1) (cw - 1)
    let sy0 := min (y * 2) (ch - 1)
    let sy1 := min (y * 2 + 1) (ch - 1)
    (readPx cur cw sx0 sy0 c + readPx cur cw sx1 sy0 c +
     readPx cur cw sx0 sy1 c + readPx cur cw sx1 sy1 c) / 4⟩

/-- The `while current_width > 64 && current_height > 64 && mipmaps.len() < 8`
loop of `generate_mipmaps`, with the remaining level budget (`8 - len`) as
the structural countdown. -/
def genMipmapsAux : Nat → Nat → Nat → Buffer → List MipmapLevel
  | 0, _, _, _ => []
  | budget + 1, cw, ch, cur =>
    if 64 < cw ∧ 64 < ch then
      let nw := cw / 2
      let nh := ch / 2
      if nw < 32 ∨ nh < 32 then []
      else
        let nd := downsample cw ch nw nh cur
        ⟨nw, nh, nd⟩ :: genMipmapsAux budget nw nh nd
    else []

/-- Source `src/image_loader.rs`, lines 80–146: `generate_mipmaps`. -/
def generate_mipmaps (width height : Nat) (data : Buffer) : List MipmapLevel :=
  genMipmapsAux 8 width height data

/-- An all-zero base buffer of the given pixel dimensions (the level
dimensions of the pyramid do not depend on pixel contents). -/
def zeroBuf (w h : Nat) : Buffer :=
  ⟨w * h * 4, fun _ => 0⟩

/-! ### Configuration constants — `src/wayland.rs` -/

def MIN_SIZE : Nat := 50
def MAX_SIZE : Nat := 4096
def MAX_BUFFER_SIZE : Nat := 64 * 1024 * 1024
def OPACITY_STEP : ℚ := 5 / 100
def MENU_ITEM_HEIGHT : Nat := 25
def MENU_WIDTH : Nat := 180
def MENU_ITEM_OPACITY_UP : Nat := 2
def MENU_ITEM_OPACITY_DOWN : Nat := 3

/-- The function `get_menu_items` always returns five entries, so the rendered menu item
count is the constant 5 (only one label depends on the scale mode). -/
def MENU_ITEM_COUNT : Nat := 5

/-! ### Quality-path source selection — `src/wayland.rs`, `render_image_static`
lines 786–813 -/

/-- The `for (i, mipmap) in image.mipmaps.iter().enumerate()` search loop:
breaks with `i.saturating_sub(1)` at the first level whose own scale is `≥`
the required ratio, otherwise remembers the running index. -/
def bestLevelGo (baseW : Nat) (r : ℚ) : Nat → Nat → List MipmapLevel → Nat
  | _, best, [] => best
  | i, _, m :: rest =>
    if r ≤ (m.width : ℚ) / (baseW : ℚ) then i - 1
    else bestLevelGo baseW r (i + 1) i rest

/-- The required downscale ratio `min(dst_w/src_w, dst_h/src_h)`. -/
def scaleRatio (image : ImageData) (width height : Nat) : ℚ :=
  min ((width : ℚ) / (image.width : ℚ)) ((height : ℚ) / (image.height : ℚ))

/-- Quality-path source selection: the
`let (img_width, img_height, src_data) = if scale_ratio < 0.7 && ...` block.
The `getD` default is never used: the guard forces `best - 1 < len`. -/
def select_source (image : ImageData) (width height : Nat) : Nat × Nat × Buffer :=
  let r := scaleRatio image width height
  if r < 7 / 10 ∧ image.mipmaps.isEmpty = false then
    let b0 := bestLevelGo image.width r 0 0 image.mipmaps
    let best := if image.mipmaps.length ≤ b0 then image.mipmaps.length - 1 else b0
    if 0 < best ∧ best ≤ image.mipmaps.length then
      let m := image.mipmaps.getD (best - 1)
        ⟨image.width, image.height, image.rgba_data⟩
      (m.width, m.height, m.data)
    else
      (image.width, image.height, image.rgba_data)
  else
    (image.width, image.height, image.rgba_data)

/-! ### Quality-path bilinear resampling — `render_image_static` lines 815–885 -/

/-- Model of `f32::round` for the nonnegative values produced by the interpolator
(round half away from zero agrees with `⌊q + 1/2⌋` on `q ≥ 0`). -/
def roundHalfUp (q : ℚ) : ℤ := ⌊q + 1 / 2⌋

/-- The `interpolate` closure: bilinear blend of one channel of the four
neighbour samples, then `v.round().clamp(0.0, 255.0) as u8`. -/
def interpByte (p00 p10 p01 p11 : Nat) (fx fy : ℚ) : Nat :=
  let v0 := (p00 : ℚ) * (1 - fx) + (p10 : ℚ) * fx
  let v1 := (p01 : ℚ) * (1 - fx) + (p11 : ℚ) * fx
  let v := v0 * (1 - fy) + v1 * fy
  min 255 (Int.toNat (roundHalfUp v))

/-- Byte `i` of the canvas written by the bilinear loop of
`render_image_static` (the loop covers every destination pixel and its
`dst_idx + 3 < canvas.len()` guard always holds, so the transparent pre-fill
is fully overwritten). -/
def staticPixelAt (imgW imgH : Nat) (src : Buffer) (width height : Nat)
    (opacity : ℚ) (i : Nat) : Nat :=
  let pix := i / 4
  let c := i % 4
  let x := pix % width
  let y := pix / width
  let scale_x := (imgW : ℚ) / (width : ℚ)
  let scale_y := (imgH : ℚ) / (height : ℚ)
  let src_x := (x : ℚ) * scale_x
  let src_y := (y : ℚ) * scale_y
  let x0 := u32ofQ src_x
  let y0 := u32ofQ src_y
  let x1 := min (x0 + 1) (imgW - 1)
  let y1 := min (y0 + 1) (imgH - 1)
  let fx := src_x - (x0 : ℚ)
  let fy := src_y - (y0 : ℚ)
  let p := fun px py ch => readPx src imgW px py ch
  if c = 3 then
    let src_alpha := (interpByte (p x0 y0 3) (p x1 y0 3) (p x0 y1 3) (p x1 y1 3) fx fy : ℚ) / 255
    u8ofQ (src_alpha * opacity * 255)
  else
    interpByte (p x0 y0 c) (p x1 y0 c) (p x0 y1 c) (p x1 y1 c) fx fy

/-- Source `src/wayland.rs`, lines 785–885: `render_image_static`.  The returned
buffer is the canvas contents after the call (valid on indices below
`width * height * 4`). -/
def render_image_static (image : ImageData) (width height : Nat)
    (opacity : ℚ) : Buffer :=
  let s := select_source image width height
  ⟨width * height * 4, fun i => staticPixelAt s.1 s.2.1 s.2.2 width height opacity i⟩

/-! ### Fast-path nearest-neighbour resampling — `render_image_fast`
lines 887–950 -/

/-- The fast-path level search: breaks with `i` at the first level whose
scale is `≥ 0.75 *` the required ratio, otherwise remembers the index. -/
def fastLevelGo (baseW : Nat) (r : ℚ) : Nat → Nat → List MipmapLevel → Nat
  | _, best, [] => best
  | i, _, m :: rest =>
    if r * (3 / 4) ≤ (m.width : ℚ) / (baseW : ℚ) then i
    else fastLevelGo baseW r (i + 1) i rest

/-- Fast-path source selection (threshold `0.5`, direct indexing). -/
def fastSelect (image : ImageData) (width height : Nat) : Nat × Nat × Buffer :=
  let r := scaleRatio image width height
  if r < 1 / 2 ∧ image.mipmaps.isEmpty = false then
    let best := fastLevelGo image.width r 0 0 image.mipmaps
    let m := image.mipmaps.getD best ⟨image.width, image.height, image.rgba_data⟩
    (m.width, m.height, m.data)
  else
    (image.width, image.height, image.rgba_data)

/-- Source `src/wayland.rs`, lines 887–950: `render_image_fast`.  Nearest-neighbour
sampling with 16.16 fixed-point scale factors; bytes whose source index fails
the bounds guard keep the previous canvas contents (this path has no
transparent pre-fill). -/
def render_image_fast (image : ImageData) (canvas : Buffer)
    (width height : Nat) (opacity : ℚ) : Buffer :=
  let s := fastSelect image width height
  let imgW := s.1
  let imgH := s.2.1
  let src := s.2.2
  let scale_x_fp := (imgW <<< 16) / width
  let scale_y_fp := (imgH <<< 16) / height
  let opacity_i := u32ofQ (opacity * 255)
  ⟨canvas.size, fun i =>
    let pix := i / 4
    let c := i % 4
    let x := pix % width
    let y := pix / width
    let src_x := min ((x * scale_x_fp) >>> 16) (imgW - 1)
    let src_y := min ((y * scale_y_fp) >>> 16) (imgH - 1)
    let src_idx := src_y * (imgW * 4) + src_x * 4
    let dst_idx := y * width * 4 + x * 4
    if i < width * height * 4 ∧ src_idx + 3 < src.size ∧ dst_idx + 3 < canvas.size then
      if c = 3 then ((src.byteAt (src_idx + 3) * opacity_i) >>> 8) % 256
      else src.byteAt (src_idx + c)
    else canvas.byteAt i⟩

/-! ### Render cache application — `apply_opacity_to_canvas` lines 952–962 -/

/-- Source `src/wayland.rs`, lines 952–962: per-pixel opacity scale over the cached
opacity-free buffer; only the pixels covered by both `chunks_exact` views are
written, the rest of the canvas keeps its old bytes. -/
def apply_opacity_to_canvas (cached canvas : Buffer) (opacity : ℚ) : Buffer :=
  ⟨canvas.size, fun i =>
    let pix := i / 4
    if pix < min (canvas.size / 4) (cached.size / 4) then
      if i % 4 = 3 then u8ofQ ((cached.byteAt i : ℚ) / 255 * opacity * 255)
      else cached.byteAt i
    else canvas.byteAt i⟩

/-! ### The software draw path — `draw_cpu` lines 657–782 -/

/-- Single-slot render cache: `cached_scaled_image` and `cached_scaled_size`. -/
structure CacheSt where
  image : Option Buffer
  sz : Nat × Nat

/-- Which sampling routine a `draw_cpu` call runs for its frame. -/
inductive RenderPath
  | fast
  | cacheHit
  | fullRender
deriving DecidableEq

/-- The rendering branch of `draw_cpu` (lines 734–762): path selection,
canvas production and cache update.  `width`/`height` are the values after
the clamping at the top of `draw_cpu`. -/
def draw_cpu_step (img : ImageData) (width height : Nat) (opacity : ℚ)
    (resizing use_gpu : Bool) (cache : CacheSt) (canvas : Buffer) :
    Buffer × CacheSt × RenderPath :=
  if resizing then
    (render_image_fast img canvas width height opacity, cache, RenderPath.fast)
  else if use_gpu = false then
    if cache.sz = (width, height) then
      match cache.image with
      | some cached =>
        (apply_opacity_to_canvas cached canvas opacity, cache, RenderPath.cacheHit)
      | none =>
        (render_image_static img width height opacity, cache, RenderPath.fullRender)
    else
      (render_image_static img width height opacity,
        ⟨some (render_image_static img width height 1), (width, height)⟩,
        RenderPath.fullRender)
  else
    (render_image_static img width height opacity, ⟨none, (0, 0)⟩,
      RenderPath.fullRender)

/-- The `draw_cpu` entry (lines 658–678): clamp the window size, abort with a
proportional scale-down when the buffer would exceed `MAX_BUFFER_SIZE`
(`none` result), otherwise render.  Also returns the clamped size. -/
def draw_cpu (img : ImageData) (width height : Nat) (opacity : ℚ)
    (resizing use_gpu : Bool) (cache : CacheSt) (canvas : Buffer) :
    Option (Buffer × CacheSt × RenderPath) × Nat × Nat :=
  let w := nclamp width MIN_SIZE MAX_SIZE
  let h := nclamp height MIN_SIZE MAX_SIZE
  let buffer_size := w * 4 * h
  if MAX_BUFFER_SIZE < buffer_size then
    let scale := sqrtQ ((MAX_BUFFER_SIZE : ℚ) / (buffer_size : ℚ))
    (none, u32ofQ ((w : ℚ) * scale), u32ofQ ((h : ℚ) * scale))
  else
    (some (draw_cpu_step img w h opacity resizing use_gpu cache canvas), w, h)

/-! ### Opacity adjustment — `adjust_opacity` lines 363–371, scroll axis
handling lines 1756–1770, menu actions lines 321–345 -/

/-- Source `src/wayland.rs`, lines 363–371: `adjust_opacity`.  Returns the new
opacity and the new `needs_redraw` flag. -/
def adjust_opacity (opacity : ℚ) (needs_redraw : Bool) (delta : ℚ) :
    ℚ × Bool :=
  let new_opacity := qclamp (opacity + delta) (1 / 10) 1
  if f32EPSILON < |new_opacity - opacity| then (new_opacity, true)
  else (opacity, needs_redraw)

/-- The `PointerEventKind::Axis` arm (lines 1756–1770): a scroll notch with
nonzero vertical value maps a positive axis value to `-OPACITY_STEP` and a
negative one to `+OPACITY_STEP`. -/
def axis_scroll (opacity : ℚ) (needs_redraw : Bool) (vertical : ℚ) :
    ℚ × Bool :=
  if vertical ≠ 0 then
    let delta := if 0 < vertical then -OPACITY_STEP else OPACITY_STEP
    adjust_opacity opacity needs_redraw delta
  else (opacity, needs_redraw)

/-- Result state of `handle_menu_action` (the fields it can mutate). -/
structure MenuActionResult where
  opacity : ℚ
  needs_redraw : Bool
  menu_visible : Bool
  should_exit : Bool
  keep_ratio : Bool

/-- Source `src/wayland.rs`, lines 321–345: `handle_menu_action`.  After the item
dispatch it always hides the menu and sets `needs_redraw = true`. -/
def handle_menu_action (opacity : ℚ) (needs_redraw : Bool)
    (keep_ratio : Bool) (item : Nat) : MenuActionResult :=
  let base : MenuActionResult :=
    ⟨opacity, needs_redraw, true, false, keep_ratio⟩
  let acted : MenuActionResult :=
    if item = 0 then { base with should_exit := true }
    else if item = 1 then base
    else if item = MENU_ITEM_OPACITY_UP then
      let r := adjust_opacity opacity needs_redraw OPACITY_STEP
      { base with opacity := r.1, needs_redraw := r.2 }
    else if item = MENU_ITEM_OPACITY_DOWN then
      let r := adjust_opacity opacity needs_redraw (-OPACITY_STEP)
      { base with opacity := r.1, needs_redraw := r.2 }
    else if item = 4 then { base with keep_ratio := !keep_ratio }
    else base
  { acted with menu_visible := false, needs_redraw := true }

/-! ### Context menu placement — secondary-button press, lines 1718–1737 -/

/-- The `BTN_RIGHT` press arm: anchor the menu at the pointer and clamp the
anchor so that `x + MENU_WIDTH ≤ width` and `y + menu_height ≤ height` when
possible, finally forcing both coordinates nonnegative. -/
def show_context_menu (width height : Nat) (px py : ℚ) : ℤ × ℤ :=
  let menu_height : ℤ := (MENU_ITEM_COUNT : ℤ) * (MENU_ITEM_HEIGHT : ℤ)
  let mx0 : ℤ := i32ofQ px
  let my0 : ℤ := i32ofQ py
  let mx1 : ℤ :=
    if (width : ℤ) < mx0 + (MENU_WIDTH : ℤ) then (width : ℤ) - (MENU_WIDTH : ℤ)
    else mx0
  let my1 : ℤ :=
    if (height : ℤ) < my0 + menu_height then (height : ℤ) - menu_height
    else my0
  (max mx1 0, max my1 0)

/-! ### Resize gesture geometry — `PointerEventKind::Motion`, lines 1535–1662 -/

/-- Source `enum ResizeEdge`. -/
inductive ResizeEdge
  | none
  | top
  | bottom
  | left
  | right
  | topLeft
  | topRight
  | bottomLeft
  | bottomRight
deriving DecidableEq

/-- Rust `i32` division (`height_diff / 2`): truncation toward zero. -/
def i32div (a b : ℤ) : ℤ := Int.tdiv a b

/-- Model of `(start as i32 ± d).max(MIN_SIZE as i32) as u32`. -/
def sizeFromDelta (start : Nat) (d : ℤ) : Nat :=
  u32ofI32 (max ((start : ℤ) + d) (MIN_SIZE : ℤ))

/-- The keep-aspect-ratio corner scale:
`scale_by_x.max(scale_by_y).max(MIN_SIZE as f32 / start_w as f32)`. -/
def cornerScale (start_w start_h : Nat) (numx numy : ℤ) : ℚ :=
  let scale_by_x := (numx : ℚ) / (start_w : ℚ)
  let scale_by_y := (numy : ℚ) / (start_h : ℚ)
  max (max scale_by_x scale_by_y) ((MIN_SIZE : ℚ) / (start_w : ℚ))

/-- The per-edge transform of the pointer-motion resize handler
(lines 1548–1639), before the size constraints are applied. -/
def resize_edge_transform (edge : ResizeEdge) (dx dy : ℤ)
    (start_w start_h : Nat) (start_ml start_mt : ℤ)
    (aspect_ratio : ℚ) (keep_ratio : Bool) : Nat × Nat × ℤ × ℤ :=
  match edge with
    | ResizeEdge.right =>
      let new_w := sizeFromDelta start_w dx
      let new_h := if keep_ratio then u32ofQ ((new_w : ℚ) / aspect_ratio) else start_h
      (new_w, new_h, start_ml, start_mt)
    | ResizeEdge.bottom =>
      let new_h := sizeFromDelta start_h dy
      let new_w := if keep_ratio then u32ofQ ((new_h : ℚ) * aspect_ratio) else start_w
      (new_w, new_h, start_ml, start_mt)
    | ResizeEdge.bottomRight =>
      if keep_ratio then
        let scale := cornerScale start_w start_h ((start_w : ℤ) + dx) ((start_h : ℤ) + dy)
        ((u32ofQ ((start_w : ℚ) * scale)), (u32ofQ ((start_h : ℚ) * scale)),
          start_ml, start_mt)
      else
        (sizeFromDelta start_w dx, sizeFromDelta start_h dy, start_ml, start_mt)
    | ResizeEdge.left =>
      let raw_w := sizeFromDelta start_w (-dx)
      let wh :=
        if keep_ratio then
          let new_h := u32ofQ ((raw_w : ℚ) / aspect_ratio)
          (raw_w, new_h, start_mt - i32div ((new_h : ℤ) - (start_h : ℤ)) 2)
        else (raw_w, start_h, start_mt)
      (wh.1, wh.2.1, start_ml + ((start_w : ℤ) - (wh.1 : ℤ)), wh.2.2)
    | ResizeEdge.top =>
      let raw_h := sizeFromDelta start_h (-dy)
      let wh :=
        if keep_ratio then
          let new_w := u32ofQ ((raw_h : ℚ) * aspect_ratio)
          (new_w, raw_h, start_ml - i32div ((new_w : ℤ) - (start_w : ℤ)) 2)
        else (start_w, raw_h, start_ml)
      (wh.1, wh.2.1, wh.2.2, start_mt + ((start_h : ℤ) - (wh.2.1 : ℤ)))
    | ResizeEdge.topLeft =>
      let nwh :=
        if keep_ratio then
          let scale := cornerScale start_w start_h ((start_w : ℤ) - dx) ((start_h : ℤ) - dy)
          ((u32ofQ ((start_w : ℚ) * scale)), (u32ofQ ((start_h : ℚ) * scale)))
        else (sizeFromDelta start_w (-dx), sizeFromDelta start_h (-dy))
      (nwh.1, nwh.2, start_ml + ((start_w : ℤ) - (nwh.1 : ℤ)),
        start_mt + ((start_h : ℤ) - (nwh.2 : ℤ)))
    | ResizeEdge.topRight =>
      let nwh :=
        if keep_ratio then
          let scale := cornerScale start_w start_h ((start_w : ℤ) + dx) ((start_h : ℤ) - dy)
          ((u32ofQ ((start_w : ℚ) * scale)), (u32ofQ ((start_h : ℚ) * scale)))
        else (sizeFromDelta start_w dx, sizeFromDelta start_h (-dy))
      (nwh.1, nwh.2, start_ml, start_mt + ((start_h : ℤ) - (nwh.2 : ℤ)))
    | ResizeEdge.bottomLeft =>
      let nwh :=
        if keep_ratio then
          let scale := cornerScale start_w start_h ((start_w : ℤ) - dx) ((start_h : ℤ) + dy)
          ((u32ofQ ((start_w : ℚ) * scale)), (u32ofQ ((start_h : ℚ) * scale)))
        else (sizeFromDelta start_w (-dx), sizeFromDelta start_h dy)
      (nwh.1, nwh.2, start_ml + ((start_w : ℤ) - (nwh.1 : ℤ)), start_mt)
    | ResizeEdge.none => (start_w, start_h, start_ml, start_mt)

/-- The size-constraint tail of the resize handler (lines 1641–1658):
clamp to `[MIN_SIZE, MAX_SIZE]`, then check the byte-size ceiling and
proportionally scale down when it is exceeded. -/
def resize_clamp (w h : Nat) (ml mt : ℤ) : Nat × Nat × ℤ × ℤ :=
  let new_w := nclamp w MIN_SIZE MAX_SIZE
  let new_h := nclamp h MIN_SIZE MAX_SIZE
  let potential := new_w * new_h * 4
  if MAX_BUFFER_SIZE < potential then
    let scale := sqrtQ ((MAX_BUFFER_SIZE : ℚ) / (potential : ℚ))
    (u32ofQ ((new_w : ℚ) * scale), u32ofQ ((new_h : ℚ) * scale), ml, mt)
  else
    (new_w, new_h, ml, mt)

/-- Pointer-motion geometry while `resizing` (lines 1535–1658): `f64`
pointer deltas cast to `i32`, the per-edge transform, then the size
constraints, producing `(width, height, margin_left, margin_top)`. -/
def resize_motion (edge : ResizeEdge) (x y sx sy : ℚ)
    (start_w start_h : Nat) (start_ml start_mt : ℤ)
    (aspect_ratio : ℚ) (keep_ratio : Bool) : Nat × Nat × ℤ × ℤ :=
  let dx : ℤ := i32ofQ (x - sx)
  let dy : ℤ := i32ofQ (y - sy)
  let r := resize_edge_transform edge dx dy start_w start_h start_ml start_mt
    aspect_ratio keep_ratio
  resize_clamp r.1 r.2.1 r.2.2.1 r.2.2.2

/-! ### Startup sizing — `calculate_limited_size` lines 1924–1946 and the
initial placement in `run`, lines 1851–1868 -/

/-- Source `src/wayland.rs`, lines 1924–1946: `calculate_limited_size`. -/
def calculate_limited_size (img_width img_height screen_width screen_height : Nat)
    (max_screen_fraction : ℚ) : Nat × Nat :=
  let s := sqrtQ max_screen_fraction
  let max_width := u32ofQ ((screen_width : ℚ) * s)
  let max_height := u32ofQ ((screen_height : ℚ) * s)
  if img_width ≤ max_width ∧ img_height ≤ max_height then (img_width, img_height)
  else
    let scale_x := (max_width : ℚ) / (img_width : ℚ)
    let scale_y := (max_height : ℚ) / (img_height : ℚ)
    let scale := min scale_x scale_y
    let new_width := u32ofQ ((img_width : ℚ) * scale)
    let new_height := u32ofQ ((img_height : ℚ) * scale)
    (max new_width 1, max new_height 1)

/-- The initial placement in `run` (lines 1864–1866): centre the window by
margins `(display - target) / 2`. -/
def initial_margins (display_width display_height target_width target_height : Nat) :
    ℤ × ℤ :=
  (((display_width - target_width) / 2 : Nat), ((display_height - target_height) / 2 : Nat))

/-! ## Lemmas and claim theorems -/

/-- Placeholder level used only as a `getD` default in statements. -/
def dummyLevel : MipmapLevel := ⟨0, 0, ⟨0, fun _ => 0⟩⟩

/-- Chain invariant of a mipmap list relative to the dimensions it was
generated from: every level halves the previous dimensions (floor) and no
generated dimension is below 32. -/
def chained : Nat → Nat → List MipmapLevel → Prop
  | _, _, [] => True
  | cw, ch, m :: rest =>
    m.width = cw / 2 ∧ m.height = ch / 2 ∧ 32 ≤ m.width ∧ 32 ≤ m.height ∧
      chained m.width m.height rest

theorem chained_genMipmapsAux (budget : Nat) :
    ∀ cw ch cur, chained cw ch (genMipmapsAux budget cw ch cur) := by
  induction budget with
  | zero => intro cw ch cur; simp [genMipmapsAux, chained]
  | succ n ih =>
    intro cw ch cur
    simp only [genMipmapsAux]
    split
    · split
      · simp [chained]
      · rename_i hbig hsmall
        refine ⟨rfl, rfl, ?_, ?_, ih _ _ _⟩
        · show 32 ≤ cw / 2
          omega
        · show 32 ≤ ch / 2
          omega
    · simp [chained]

theorem chained_mem {cw ch : Nat} {L : List MipmapLevel} (h : chained cw ch L) :
    ∀ m ∈ L, 32 ≤ m.width ∧ 32 ≤ m.height := by
  induction L generalizing cw ch with
  | nil => intro m hm; cases hm
  | cons a rest ih =>
    intro m hm
    rcases List.mem_cons.mp hm with hm1 | hm2
    · subst hm1; exact ⟨h.2.2.1, h.2.2.2.1⟩
    · exact ih h.2.2.2.2 m hm2

theorem chained_head {cw ch : Nat} {L : List MipmapLevel} (h : chained cw ch L)
    (hL : 0 < L.length) :
    (L.getD 0 dummyLevel).width = cw / 2 ∧ (L.getD 0 dummyLevel).height = ch / 2 := by
  cases L with
  | nil => simp at hL
  | cons a rest => exact ⟨h.1, h.2.1⟩

theorem chained_step {cw ch : Nat} {L : List MipmapLevel} (h : chained cw ch L) :
    ∀ i, i + 1 < L.length →
      (L.getD (i + 1) dummyLevel).width = (L.getD i dummyLevel).width / 2 ∧
      (L.getD (i + 1) dummyLevel).height = (L.getD i dummyLevel).height / 2 := by
  induction L generalizing cw ch with
  | nil => intro i hi; simp at hi
  | cons a rest ih =>
    intro i hi
    cases i with
    | zero =>
      cases rest with
      | nil => simp at hi
      | cons b rest2 =>
        have hb := h.2.2.2.2
        refine ⟨?_, ?_⟩
        · show b.width = a.width / 2
          exact hb.1
        · show b.height = a.height / 2
          exact hb.2.1
    | succ j =>
      have := ih h.2.2.2.2 j (by simpa using hi)
      simpa using this

theorem genMipmapsAux_length (budget : Nat) :
    ∀ cw ch cur, (genMipmapsAux budget cw ch cur).length ≤ budget := by
  induction budget with
  | zero => intro cw ch cur; simp [genMipmapsAux]
  | succ n ih =>
    intro cw ch cur
    simp only [genMipmapsAux]
    split
    · split
      · simp
      · simpa using Nat.succ_le_succ (ih _ _ _)
    · simp

/-- Claim C1 (amended): every mipmap level has exactly half (integer floor)
the width and height of the previous level (the first level halving the base
image), no level has either dimension below 32 pixels, at most 8 levels are
produced — but a 512×512 base image yields exactly THREE levels, 256×256,
128×128 and 64×64, because generation continues while the current (not next)
dimensions exceed 64. -/
theorem mipmaps_halving_bounds (w h : Nat) (d : Buffer) :
    (0 < (generate_mipmaps w h d).length →
      ((generate_mipmaps w h d).getD 0 dummyLevel).width = w / 2 ∧
      ((generate_mipmaps w h d).getD 0 dummyLevel).height = h / 2) ∧
    (∀ i, i + 1 < (generate_mipmaps w h d).length →
      ((generate_mipmaps w h d).getD (i + 1) dummyLevel).width =
        ((generate_mipmaps w h d).getD i dummyLevel).width / 2 ∧
      ((generate_mipmaps w h d).getD (i + 1) dummyLevel).height =
        ((generate_mipmaps w h d).getD i dummyLevel).height / 2) ∧
    (∀ m ∈ generate_mipmaps w h d, 32 ≤ m.width ∧ 32 ≤ m.height) ∧
    (generate_mipmaps w h d).length ≤ 8 ∧
    (generate_mipmaps 512 512 (zeroBuf 512 512)).map
      (fun m => (m.width, m.height)) = [(256, 256), (128, 128), (64, 64)] := by
  have hch := chained_genMipmapsAux 8 w h d
  refine ⟨chained_head hch, chained_step hch, chained_mem hch,
    genMipmapsAux_length 8 w h d, rfl⟩

/-- Witness for `mipmaps_halving_bounds` at the concrete 512×512 pyramid. -/
theorem mipmaps_halving_bounds_witness :
    ((generate_mipmaps 512 512 (zeroBuf 512 512)).getD 1 dummyLevel).width =
      ((generate_mipmaps 512 512 (zeroBuf 512 512)).getD 0 dummyLevel).width / 2 :=
  ((mipmaps_halving_bounds 512 512 (zeroBuf 512 512)).2.1 0 (by decide)).1

/-- Counterexample to claim C1 as stated: the 512×512 pyramid has three
levels (256×256, 128×128, 64×64), not exactly two. -/
theorem mipmaps_512_three_levels :
    (generate_mipmaps 512 512 (zeroBuf 512 512)).map
        (fun m => (m.width, m.height)) = [(256, 256), (128, 128), (64, 64)] ∧
      (generate_mipmaps 512 512 (zeroBuf 512 512)).length ≠ 2 := by
  exact ⟨rfl, by decide⟩

theorem bestLevelGo_all_lt {baseW : Nat} {r : ℚ} {L : List MipmapLevel}
    (h : ∀ m ∈ L, (m.width : ℚ) / (baseW : ℚ) < r) :
    ∀ i b, bestLevelGo baseW r i b L =
      if L.length = 0 then b else i + (L.length - 1) := by
  induction L with
  | nil => intro i b; simp [bestLevelGo]
  | cons m rest ih =>
    intro i b
    have hm : ¬ r ≤ (m.width : ℚ) / (baseW : ℚ) :=
      not_le.mpr (h m (List.mem_cons_self m rest))
    have hrest : ∀ m2 ∈ rest, (m2.width : ℚ) / (baseW : ℚ) < r :=
      fun m2 hm2 => h m2 (List.mem_cons_of_mem m hm2)
    simp only [bestLevelGo, if_neg hm, ih hrest]
    cases rest with
    | nil => simp
    | cons b2 rest2 => simp; omega

/-- The base image as a source triple (shared shorthand for statements). -/
def fullRes (image : ImageData) : Nat × Nat × Buffer :=
  (image.width, image.height, image.rgba_data)

/-- Claim C2 (amended): in the quality path with required ratio `< 0.7` and a
non-empty pyramid, the full-resolution buffer is chosen whenever the finest
level's own ratio is already `≥` the required ratio, or when every level's
ratio is below the required ratio and the pyramid has a single level; when
every level's ratio is below the required ratio and at least two levels
exist, the second-coarsest level (index `len - 2`) is chosen.  In all other
cases (`ratio ≥ 0.7` or empty pyramid) the full-resolution buffer is used. -/
theorem select_source_spec (image : ImageData) (width height : Nat) :
    (¬ scaleRatio image width height < 7 / 10 ∨ image.mipmaps = [] →
      select_source image width height = fullRes image) ∧
    (scaleRatio image width height < 7 / 10 →
      ∀ m0 rest, image.mipmaps = m0 :: rest →
        scaleRatio image width height ≤ (m0.width : ℚ) / (image.width : ℚ) →
        select_source image width height = fullRes image) ∧
    (scaleRatio image width height < 7 / 10 →
      (∀ m ∈ image.mipmaps,
        (m.width : ℚ) / (image.width : ℚ) < scaleRatio image width height) →
      (image.mipmaps.length = 1 →
        select_source image width height = fullRes image) ∧
      (2 ≤ image.mipmaps.length →
        select_source image width height =
          ((image.mipmaps.getD (image.mipmaps.length - 2) dummyLevel).width,
           (image.mipmaps.getD (image.mipmaps.length - 2) dummyLevel).height,
           (image.mipmaps.getD (image.mipmaps.length - 2) dummyLevel).data))) := by
  refine ⟨?_, ?_, ?_⟩
  · intro hcase
    rcases hcase with hr | hemp
    · simp only [select_source, fullRes]
      rw [if_neg]
      intro hand
      exact hr hand.1
    · simp only [select_source, fullRes, hemp]
      rw [if_neg]
      intro hand
      simp at hand
  · intro hr m0 rest hL hge
    simp only [select_source, fullRes, hL]
    have hcond : scaleRatio image width height < 7 / 10 ∧
        (m0 :: rest).isEmpty = false := ⟨hr, rfl⟩
    rw [if_pos hcond]
    have hb0 : bestLevelGo image.width (scaleRatio image width height) 0 0
        (m0 :: rest) = 0 := by
      simp [bestLevelGo, if_pos hge]
    rw [hb0]
    have hlen : ¬ (m0 :: rest).length ≤ 0 := by simp
    rw [if_neg hlen]
    rw [if_neg]
    simp
  · intro hr hall
    constructor
    · intro hlen1
      simp only [select_source, fullRes]
      rcases hL : image.mipmaps with _ | ⟨m0, rest⟩
      · rw [if_neg]
        intro hand
        simp [hL] at hand
      · rw [hL] at hlen1 hall
        have hcond : scaleRatio image width height < 7 / 10 ∧
            (m0 :: rest).isEmpty = false := ⟨hr, rfl⟩
        rw [if_pos hcond]
        rw [bestLevelGo_all_lt hall 0 0]
        have : (m0 :: rest).length = 1 := hlen1
        rw [this]
        norm_num
    · intro hlen2
      rcases hL : image.mipmaps with _ | ⟨m0, rest⟩
      · rw [hL] at hlen2; simp at hlen2
      · rw [hL] at hlen2 hall
        simp only [select_source, hL]
        have hcond : scaleRatio image width height < 7 / 10 ∧
            (m0 :: rest).isEmpty = false := ⟨hr, rfl⟩
        rw [if_pos hcond]
        rw [bestLevelGo_all_lt hall 0 0]
        have hne : ¬ (m0 :: rest).length = 0 := by simp
        rw [if_neg hne]
        have hb : (0 : Nat) + ((m0 :: rest).length - 1) = (m0 :: rest).length - 1 := by
          omega
        rw [hb]
        have hnle : ¬ (m0 :: rest).length ≤ (m0 :: rest).length - 1 := by
          simp only [List.length_cons]; omega
        rw [if_neg hnle]
        have hguard : 0 < (m0 :: rest).length - 1 ∧
            (m0 :: rest).length - 1 ≤ (m0 :: rest).length := by
          simp only [List.length_cons] at hlen2 ⊢; omega
        rw [if_pos hguard]
        have hidx : (m0 :: rest).length - 1 - 1 = (m0 :: rest).length - 2 := by omega
        rw [hidx]
        have hlt : (m0 :: rest).length - 2 < (m0 :: rest).length := by
          simp only [List.length_cons]; omega
        rw [List.getD_eq_getElem _ _ hlt, List.getD_eq_getElem _ _ hlt]

/-- Witness for `select_source_spec`: a two-level pyramid whose level ratios
(1/2 and 1/4) are both below the required ratio 0.6 selects level
`len - 2 = 0`. -/
theorem select_source_spec_witness :
    select_source
        ⟨100, 100, zeroBuf 100 100,
          [⟨50, 50, zeroBuf 50 50⟩, ⟨25, 25, zeroBuf 25 25⟩]⟩ 60 60 =
      (50, 50, zeroBuf 50 50) := by
  have h := (select_source_spec
      ⟨100, 100, zeroBuf 100 100,
        [⟨50, 50, zeroBuf 50 50⟩, ⟨25, 25, zeroBuf 25 25⟩]⟩ 60 60).2.2
  have h2 := (h (by norm_num [scaleRatio])
    (by
      intro m hm
      rcases List.mem_cons.mp hm with h1 | h1
      · subst h1; norm_num [scaleRatio]
      · rcases List.mem_cons.mp h1 with h2 | h2
        · subst h2; norm_num [scaleRatio]
        · cases h2)).2 (by decide)
  simpa using h2

/-- Counterexample to claim C2 as stated: for the 512×512 pyramid
(levels 256, 128, 64) and target 128×128 the required ratio is 1/4 (< 0.7,
pyramid non-empty), yet the code selects the full-resolution 512×512 buffer,
not a mip level. -/
theorem select_source_counterexample :
    (select_source
        ⟨512, 512, zeroBuf 512 512,
          generate_mipmaps 512 512 (zeroBuf 512 512)⟩ 128 128).1 = 512 ∧
      scaleRatio
        ⟨512, 512, zeroBuf 512 512,
          generate_mipmaps 512 512 (zeroBuf 512 512)⟩ 128 128 < 7 / 10 ∧
      (generate_mipmaps 512 512 (zeroBuf 512 512)).map (fun m => m.width) =
        [256, 128, 64] := by
  refine ⟨?_, by norm_num [scaleRatio], rfl⟩
  norm_num [select_source, scaleRatio, bestLevelGo, generate_mipmaps, genMipmapsAux]

theorem nclamp_bounds (x lo hi : Nat) (h : lo ≤ hi) :
    lo ≤ nclamp x lo hi ∧ nclamp x lo hi ≤ hi := by
  unfold nclamp; omega

theorem resize_clamp_bounds (w h : Nat) (ml mt : ℤ) :
    MIN_SIZE ≤ (resize_clamp w h ml mt).1 ∧
    (resize_clamp w h ml mt).1 ≤ MAX_SIZE ∧
    MIN_SIZE ≤ (resize_clamp w h ml mt).2.1 ∧
    (resize_clamp w h ml mt).2.1 ≤ MAX_SIZE ∧
    (resize_clamp w h ml mt).1 * (resize_clamp w h ml mt).2.1 * 4 ≤
      MAX_BUFFER_SIZE := by
  have hw := nclamp_bounds w MIN_SIZE MAX_SIZE (by norm_num [MIN_SIZE, MAX_SIZE])
  have hh := nclamp_bounds h MIN_SIZE MAX_SIZE (by norm_num [MIN_SIZE, MAX_SIZE])
  have hbytes : nclamp w MIN_SIZE MAX_SIZE * nclamp h MIN_SIZE MAX_SIZE * 4 ≤
      MAX_BUFFER_SIZE := by
    calc nclamp w MIN_SIZE MAX_SIZE * nclamp h MIN_SIZE MAX_SIZE * 4
        ≤ MAX_SIZE * MAX_SIZE * 4 :=
          Nat.mul_le_mul (Nat.mul_le_mul hw.2 hh.2) (le_refl 4)
      _ = MAX_BUFFER_SIZE := by norm_num [MAX_SIZE, MAX_BUFFER_SIZE]
  have hdead : ¬ MAX_BUFFER_SIZE <
      nclamp w MIN_SIZE MAX_SIZE * nclamp h MIN_SIZE MAX_SIZE * 4 :=
    not_lt.mpr hbytes
  simp only [resize_clamp, if_neg hdead]
  exact ⟨hw.1, hw.2, hh.1, hh.2, hbytes⟩

/-- Claim C3 (confirmed): after every pointer-motion update while a resize
gesture is active, the resulting viewport satisfies
`50 ≤ width, height ≤ 4096` and `width * height * 4 ≤ 64 MiB` — for every
edge, pointer position, gesture reference frame, aspect ratio and scale
mode.  (After the `[MIN_SIZE, MAX_SIZE]` clamp the byte ceiling is already
met with equality at worst, since `4096 * 4096 * 4 = 64 MiB`, so the
proportional scale-down branch never fires.) -/
theorem resize_motion_invariant (edge : ResizeEdge) (x y sx sy : ℚ)
    (start_w start_h : Nat) (start_ml start_mt : ℤ)
    (aspect_ratio : ℚ) (keep_ratio : Bool) :
    MIN_SIZE ≤ (resize_motion edge x y sx sy start_w start_h start_ml start_mt
        aspect_ratio keep_ratio).1 ∧
    (resize_motion edge x y sx sy start_w start_h start_ml start_mt
        aspect_ratio keep_ratio).1 ≤ MAX_SIZE ∧
    MIN_SIZE ≤ (resize_motion edge x y sx sy start_w start_h start_ml start_mt
        aspect_ratio keep_ratio).2.1 ∧
    (resize_motion edge x y sx sy start_w start_h start_ml start_mt
        aspect_ratio keep_ratio).2.1 ≤ MAX_SIZE ∧
    (resize_motion edge x y sx sy start_w start_h start_ml start_mt
          aspect_ratio keep_ratio).1 *
        (resize_motion edge x y sx sy start_w start_h start_ml start_mt
          aspect_ratio keep_ratio).2.1 * 4 ≤ MAX_BUFFER_SIZE := by
  simp only [resize_motion]
  exact resize_clamp_bounds _ _ _ _

theorem interpByte_le (p00 p10 p01 p11 : Nat) (fx fy : ℚ) :
    interpByte p00 p10 p01 p11 fx fy ≤ 255 := by
  simp [interpByte]

/-- The colour channels of a quality-path pixel do not depend on opacity. -/
theorem staticPixelAt_color (imgW imgH : Nat) (src : Buffer)
    (width height : Nat) (op : ℚ) (i : Nat) (hc : i % 4 ≠ 3) :
    staticPixelAt imgW imgH src width height op i =
      staticPixelAt imgW imgH src width height 1 i := by
  simp only [staticPixelAt, if_neg hc]

theorem u8ofQ_natCast (n : Nat) (hn : n ≤ 255) : u8ofQ (n : ℚ) = n := by
  have h0 : (0 : ℚ) ≤ (n : ℚ) := Nat.cast_nonneg n
  simp only [u8ofQ, truncQ, if_pos h0, Int.floor_natCast, Int.toNat_natCast]
  omega

/-- The alpha of a quality-path pixel is the truncated opacity scale of the
alpha rendered at opacity 1 (which itself is the rounded bilinear alpha). -/
theorem staticPixelAt_alpha (imgW imgH : Nat) (src : Buffer)
    (width height : Nat) (op : ℚ) (i : Nat) (hc : i % 4 = 3) :
    staticPixelAt imgW imgH src width height op i =
      u8ofQ ((staticPixelAt imgW imgH src width height 1 i : ℚ) / 255 * op * 255) := by
  have key : ∀ A : Nat, A ≤ 255 →
      u8ofQ ((A : ℚ) / 255 * op * 255) =
        u8ofQ ((u8ofQ ((A : ℚ) / 255 * 1 * 255) : ℚ) / 255 * op * 255) := by
    intro A hA
    have hbase : (A : ℚ) / 255 * 1 * 255 = (A : ℚ) := by field_simp
    rw [hbase, u8ofQ_natCast A hA]
  simp only [staticPixelAt, if_pos hc]
  exact key _ (interpByte_le _ _ _ _ _ _)

/-- Claim C5 (amended): in the quality path every destination alpha equals
the TRUNCATION (not rounding) of `src_alpha / 255 * opacity * 255`, where
`src_alpha` is the rounded bilinear source alpha (the alpha the same render
produces at opacity 1); the B, G, R channels equal the interpolation result
unscaled by opacity (they coincide with the opacity-1 render). -/
theorem render_image_static_channels (image : ImageData) (width height : Nat)
    (op : ℚ) (i : Nat) :
    (i % 4 ≠ 3 →
      (render_image_static image width height op).byteAt i =
        (render_image_static image width height 1).byteAt i) ∧
    (i % 4 = 3 →
      (render_image_static image width height op).byteAt i =
        u8ofQ (((render_image_static image width height 1).byteAt i : ℚ) /
          255 * op * 255)) := by
  constructor
  · intro hc
    simp only [render_image_static]
    exact staticPixelAt_color _ _ _ _ _ _ _ hc
  · intro hc
    simp only [render_image_static]
    exact staticPixelAt_alpha _ _ _ _ _ _ _ hc

/-- A concrete 1×1 image with BGRA bytes (10, 20, 30, 255), no mipmaps. -/
def image1 : ImageData :=
  ⟨1, 1, ⟨4, fun i => [10, 20, 30, 255].getD i 0⟩, []⟩

/-- Witness for `render_image_static_channels` at `image1`, opacity 1/2,
alpha byte. -/
theorem render_image_static_channels_witness :
    (render_image_static image1 1 1 (1 / 2)).byteAt 3 =
      u8ofQ (((render_image_static image1 1 1 1).byteAt 3 : ℚ) / 255 *
        (1 / 2) * 255) :=
  (render_image_static_channels image1 1 1 (1 / 2) 3).2 (by norm_num)

/-- Counterexample to claim C5 as stated: for `image1` (source alpha 255)
and opacity 1/2 the computed alpha is `trunc(127.5) = 127`, while the
claimed `round(src_alpha/255 * opacity * 255)` is `round(127.5) = 128`. -/
theorem render_image_static_alpha_truncates :
    (render_image_static image1 1 1 (1 / 2)).byteAt 3 = 127 ∧
      roundHalfUp ((255 : ℚ) / 255 * (1 / 2) * 255) = 128 ∧
      (127 : Nat) ≠ 128 := by
  refine ⟨?_, ?_, by decide⟩
  · have hs : select_source image1 1 1 = (1, 1, image1.rgba_data) := by
      norm_num [select_source, scaleRatio, image1]
    have hb : (render_image_static image1 1 1 (1 / 2)).byteAt 3 =
        staticPixelAt 1 1 image1.rgba_data 1 1 (1 / 2) 3 := by
      simp only [render_image_static, hs]
    rw [hb]
    norm_num [staticPixelAt, interpByte, roundHalfUp, readPx, image1,
      u32ofQ, u8ofQ, truncQ]
    decide
  · norm_num [roundHalfUp]

theorem apply_opacity_byteAt (cached canvas : Buffer) (op : ℚ) (i : Nat)
    (hcov : i / 4 < min (canvas.size / 4) (cached.size / 4)) :
    (apply_opacity_to_canvas cached canvas op).byteAt i =
      if i % 4 = 3 then u8ofQ ((cached.byteAt i : ℚ) / 255 * op * 255)
      else cached.byteAt i := by
  simp only [apply_opacity_to_canvas, if_pos hcov]

/-- Two consecutive redraws through the rendering branch of `draw_cpu`
(not resizing, GPU disabled), at the same output size with two opacities. -/
def drawTwice (img : ImageData) (w h : Nat) (op1 op2 : ℚ)
    (cache : CacheSt) (canvas : Buffer) :
    (Buffer × CacheSt × RenderPath) × (Buffer × CacheSt × RenderPath) :=
  let st1 := draw_cpu_step img w h op1 false false cache canvas
  (st1, draw_cpu_step img w h op2 false false st1.2.1 st1.1)

/-- Claim C4 (amended): for two consecutive non-resizing software redraws at
the same output size, the second redraw is a cache hit (no bilinear
resampling), its B, G, R bytes are pixel-identical to the first frame, and
both frames' alpha bytes are the truncated opacity scale of the shared
opacity-free cache buffer — PROVIDED the cache is not in the invalidated
state whose recorded size already equals the output size while its buffer is
absent (the state left by a resize release or a scale-mode toggle at
unchanged size); in that state every redraw re-runs the full bilinear
resample. -/
theorem draw_cpu_consecutive_cache (img : ImageData) (w h : Nat)
    (op1 op2 : ℚ) (cache : CacheSt) (canvas : Buffer)
    (hcanvas : canvas.size = w * h * 4)
    (hcached : ∀ C, cache.image = some C → C.size = w * h * 4)
    (hstale : ¬ (cache.sz = (w, h) ∧ cache.image = none)) :
    (drawTwice img w h op1 op2 cache canvas).2.2.2 = RenderPath.cacheHit ∧
    (∀ i, i < w * h * 4 → i % 4 ≠ 3 →
      (drawTwice img w h op1 op2 cache canvas).2.1.byteAt i =
        (drawTwice img w h op1 op2 cache canvas).1.1.byteAt i) ∧
    ∃ K : Buffer, (drawTwice img w h op1 op2 cache canvas).1.2.1.image = some K ∧
      K.size = w * h * 4 ∧
      ∀ i, i < w * h * 4 → i % 4 = 3 →
        (drawTwice img w h op1 op2 cache canvas).1.1.byteAt i =
          u8ofQ ((K.byteAt i : ℚ) / 255 * op1 * 255) ∧
        (drawTwice img w h op1 op2 cache canvas).2.1.byteAt i =
          u8ofQ ((K.byteAt i : ℚ) / 255 * op2 * 255) := by
  by_cases hsz : cache.sz = (w, h)
  · rcases hC : cache.image with _ | C
    · exact absurd ⟨hsz, hC⟩ hstale
    · have hCsz : C.size = w * h * 4 := hcached C hC
      have hst1 : drawTwice img w h op1 op2 cache canvas =
          ((apply_opacity_to_canvas C canvas op1, cache, RenderPath.cacheHit),
           (apply_opacity_to_canvas C (apply_opacity_to_canvas C canvas op1) op2,
            cache, RenderPath.cacheHit)) := by
        simp [drawTwice, draw_cpu_step, hsz, hC]
      rw [hst1]
      have hcov1 : ∀ i, i < w * h * 4 →
          i / 4 < min (canvas.size / 4) (C.size / 4) := by
        intro i hi
        rw [hcanvas, hCsz]
        omega
      have hcov2 : ∀ i, i < w * h * 4 →
          i / 4 < min ((apply_opacity_to_canvas C canvas op1).size / 4) (C.size / 4) := by
        intro i hi
        show i / 4 < min (canvas.size / 4) (C.size / 4)
        exact hcov1 i hi
      refine ⟨rfl, ?_, C, hC, hCsz, ?_⟩
      · intro i hi hc
        rw [apply_opacity_byteAt C _ op2 i (hcov2 i hi), if_neg hc,
          apply_opacity_byteAt C canvas op1 i (hcov1 i hi), if_neg hc]
      · intro i hi hc
        constructor
        · rw [apply_opacity_byteAt C canvas op1 i (hcov1 i hi), if_pos hc]
        · rw [apply_opacity_byteAt C _ op2 i (hcov2 i hi), if_pos hc]
  · have hst1 : drawTwice img w h op1 op2 cache canvas =
        ((render_image_static img w h op1,
          ⟨some (render_image_static img w h 1), (w, h)⟩, RenderPath.fullRender),
         (apply_opacity_to_canvas (render_image_static img w h 1)
            (render_image_static img w h op1) op2,
          ⟨some (render_image_static img w h 1), (w, h)⟩, RenderPath.cacheHit)) := by
      simp [drawTwice, draw_cpu_step, hsz]
    rw [hst1]
    have hsize1 : (render_image_static img w h op1).size = w * h * 4 := rfl
    have hsizeK : (render_image_static img w h 1).size = w * h * 4 := rfl
    have hcov : ∀ i, i < w * h * 4 →
        i / 4 < min ((render_image_static img w h op1).size / 4)
          ((render_image_static img w h 1).size / 4) := by
      intro i hi
      rw [hsize1, hsizeK]
      omega
    refine ⟨rfl, ?_, render_image_static img w h 1, rfl, hsizeK, ?_⟩
    · intro i hi hc
      rw [apply_opacity_byteAt _ _ op2 i (hcov i hi), if_neg hc]
      exact ((render_image_static_channels img w h op1 i).1 hc).symm
    · intro i hi hc
      constructor
      · exact (render_image_static_channels img w h op1 i).2 hc
      · rw [apply_opacity_byteAt _ _ op2 i (hcov i hi), if_pos hc]

/-- Witness for `draw_cpu_consecutive_cache` with an empty initial cache. -/
theorem draw_cpu_consecutive_cache_witness :
    (drawTwice image1 1 1 (1 / 2) (3 / 4) ⟨none, (0, 0)⟩ (zeroBuf 1 1)).2.2.2 =
      RenderPath.cacheHit :=
  (draw_cpu_consecutive_cache image1 1 1 (1 / 2) (3 / 4) ⟨none, (0, 0)⟩
    (zeroBuf 1 1) rfl (fun C hC => Option.noConfusion hC)
    (fun hand => absurd hand.1 (by decide))).1

/-- Counterexample to claim C4 as stated: starting from the invalidated
cache state `(none, (60, 60))` (reachable by releasing a resize gesture at
an unchanged 60×60 size), two consecutive non-resizing software redraws at
60×60 with opacities 1/2 then 3/4 BOTH take the full bilinear resampling
path: the second redraw does invoke the resampling routine. -/
theorem draw_cpu_stale_cache_counterexample :
    (drawTwice image1 60 60 (1 / 2) (3 / 4) ⟨none, (60, 60)⟩
        (zeroBuf 60 60)).2.2.2 = RenderPath.fullRender ∧
      RenderPath.fullRender ≠ RenderPath.cacheHit := by
  exact ⟨rfl, by decide⟩

/-- Claim C8 (amended): the software path can read or populate the render
cache only when GPU rendering is disabled — with `use_gpu = true` a frame is
never a cache hit — and a non-resizing software frame drawn while
`use_gpu = true` (GPU fallback) clears the cache slot and is produced by the
full bilinear resample even at an unchanged output size.  (While a resize
gesture is in progress the fallback instead uses the fast path and leaves
the cache slot untouched.) -/
theorem draw_cpu_gpu_fallback (img : ImageData) (w h : Nat) (op : ℚ)
    (cache : CacheSt) (canvas : Buffer) :
    (∀ resizing : Bool, ∀ cache2 : CacheSt,
      (draw_cpu_step img w h op resizing true cache2 canvas).2.2 ≠
        RenderPath.cacheHit) ∧
    (draw_cpu_step img w h op false true cache canvas).2.1 = ⟨none, (0, 0)⟩ ∧
    (draw_cpu_step img w h op false true cache canvas).2.2 =
      RenderPath.fullRender ∧
    (draw_cpu_step img w h op false true cache canvas).1 =
      render_image_static img w h op := by
  refine ⟨?_, rfl, rfl, rfl⟩
  intro resizing cache2 hpath
  cases resizing <;> simp [draw_cpu_step] at hpath

/-- Witness for `draw_cpu_gpu_fallback`: with GPU enabled, even a matching
populated cache slot yields no cache hit. -/
theorem draw_cpu_gpu_fallback_witness :
    (draw_cpu_step image1 1 1 1 false true ⟨some (zeroBuf 1 1), (1, 1)⟩
        (zeroBuf 1 1)).2.2 ≠ RenderPath.cacheHit :=
  (draw_cpu_gpu_fallback image1 1 1 1 ⟨some (zeroBuf 1 1), (1, 1)⟩
    (zeroBuf 1 1)).1 false ⟨some (zeroBuf 1 1), (1, 1)⟩

/-- Counterexample to claim C8 as stated: a software frame drawn while
`use_gpu = true` AND a resize gesture is active takes the fast
nearest-neighbour path and leaves the cache slot untouched (neither cleared
nor bilinear-resampled). -/
theorem draw_cpu_gpu_resizing_counterexample :
    (draw_cpu_step image1 60 60 1 true true ⟨some (zeroBuf 1 1), (60, 60)⟩
        (zeroBuf 60 60)).2.1 = ⟨some (zeroBuf 1 1), (60, 60)⟩ ∧
      (draw_cpu_step image1 60 60 1 true true ⟨some (zeroBuf 1 1), (60, 60)⟩
        (zeroBuf 60 60)).2.2 = RenderPath.fast ∧
      RenderPath.fast ≠ RenderPath.fullRender := by
  exact ⟨rfl, rfl, by decide⟩

theorem qclamp_ge (x lo hi : ℚ) (h : lo ≤ hi) : lo ≤ qclamp x lo hi :=
  le_min h (le_max_left lo x)

/-- Claim C10 (amended): `adjust_opacity` itself leaves both the opacity and
the `needs_redraw` flag unchanged when the clamped result equals the current
opacity (so a scroll notch in that situation marks no redraw), but the menu
Opacity+/Opacity− actions always set `needs_redraw = true` afterwards (the
unconditional menu-dismissal redraw), even when the opacity is unchanged. -/
theorem adjust_opacity_noop_spec (op : ℚ) (b : Bool) (delta : ℚ) (kr : Bool) :
    (qclamp (op + delta) (1 / 10) 1 = op → adjust_opacity op b delta = (op, b)) ∧
    (handle_menu_action op b kr MENU_ITEM_OPACITY_UP).needs_redraw = true ∧
    (handle_menu_action op b kr MENU_ITEM_OPACITY_DOWN).needs_redraw = true ∧
    (qclamp (op + OPACITY_STEP) (1 / 10) 1 = op →
      (handle_menu_action op b kr MENU_ITEM_OPACITY_UP).opacity = op) ∧
    (qclamp (op + -OPACITY_STEP) (1 / 10) 1 = op →
      (handle_menu_action op b kr MENU_ITEM_OPACITY_DOWN).opacity = op) := by
  have hnoop : ∀ b2 : Bool, ∀ d : ℚ, qclamp (op + d) (1 / 10) 1 = op →
      adjust_opacity op b2 d = (op, b2) := by
    intro b2 d hd
    simp only [adjust_opacity, hd, sub_self, abs_zero]
    rw [if_neg]
    norm_num [f32EPSILON]
  refine ⟨hnoop b delta, rfl, rfl, ?_, ?_⟩
  · intro hd
    simp only [handle_menu_action, MENU_ITEM_OPACITY_UP, MENU_ITEM_OPACITY_DOWN]
    norm_num [hnoop b OPACITY_STEP hd]
  · intro hd
    simp only [handle_menu_action, MENU_ITEM_OPACITY_UP, MENU_ITEM_OPACITY_DOWN]
    norm_num [hnoop b (-OPACITY_STEP) hd]

/-- Witness for `adjust_opacity_noop_spec`: a decrease notch at the floor
opacity 0.1 changes nothing and leaves the redraw flag untouched. -/
theorem adjust_opacity_noop_spec_witness :
    adjust_opacity (1 / 10) false (-OPACITY_STEP) = (1 / 10, false) :=
  (adjust_opacity_noop_spec (1 / 10) false (-OPACITY_STEP) true).1
    (by norm_num [qclamp, OPACITY_STEP])

/-- Counterexample to claim C10 as stated: the menu Opacity+ action at
opacity 1.0 (clamped result = current opacity) leaves the opacity unchanged
but DOES set `needs_redraw`. -/
theorem menu_opacity_noop_marks_redraw :
    qclamp (1 + OPACITY_STEP) (1 / 10) 1 = 1 ∧
      (handle_menu_action 1 false true MENU_ITEM_OPACITY_UP).opacity = 1 ∧
      (handle_menu_action 1 false true MENU_ITEM_OPACITY_UP).needs_redraw =
        true := by
  refine ⟨by norm_num [qclamp, OPACITY_STEP], ?_, rfl⟩
  norm_num [handle_menu_action, adjust_opacity, qclamp, OPACITY_STEP,
    f32EPSILON, MENU_ITEM_OPACITY_UP]

/-- Claim C6 (amended): a vertical scroll notch with negative axis value
increases opacity by the 0.05 step and a positive one decreases it, the
result clamped to `[0.1, 1.0]` — EXCEPT that when the clamped result differs
from the current opacity by at most `f32::EPSILON` the opacity (and the
redraw flag) is left unchanged instead.  From opacity 0.50 one increase
notch yields exactly 0.55, and no notch ever takes an opacity that is
`≥ 0.1` below 0.1. -/
theorem axis_scroll_spec (op : ℚ) (b : Bool) (v : ℚ) :
    (v < 0 → f32EPSILON < |qclamp (op + OPACITY_STEP) (1 / 10) 1 - op| →
      axis_scroll op b v = (qclamp (op + OPACITY_STEP) (1 / 10) 1, true)) ∧
    (0 < v → f32EPSILON < |qclamp (op + -OPACITY_STEP) (1 / 10) 1 - op| →
      axis_scroll op b v = (qclamp (op + -OPACITY_STEP) (1 / 10) 1, true)) ∧
    (v < 0 → |qclamp (op + OPACITY_STEP) (1 / 10) 1 - op| ≤ f32EPSILON →
      axis_scroll op b v = (op, b)) ∧
    (0 < v → |qclamp (op + -OPACITY_STEP) (1 / 10) 1 - op| ≤ f32EPSILON →
      axis_scroll op b v = (op, b)) ∧
    axis_scroll (1 / 2) b (-1) = (11 / 20, true) ∧
    (1 / 10 ≤ op → 1 / 10 ≤ (axis_scroll op b v).1) := by
  have hup : v < 0 → axis_scroll op b v = adjust_opacity op b OPACITY_STEP := by
    intro hv
    simp only [axis_scroll, if_pos (ne_of_lt hv), if_neg (not_lt.mpr (le_of_lt hv))]
  have hdown : 0 < v → axis_scroll op b v = adjust_opacity op b (-OPACITY_STEP) := by
    intro hv
    simp only [axis_scroll, if_pos (ne_of_gt hv), if_pos hv]
  refine ⟨?_, ?_, ?_, ?_, ?_, ?_⟩
  · intro hv hbig
    rw [hup hv]
    simp only [adjust_opacity, if_pos hbig]
  · intro hv hbig
    rw [hdown hv]
    simp only [adjust_opacity, if_pos hbig]
  · intro hv hsmall
    rw [hup hv]
    simp only [adjust_opacity, if_neg (not_lt.mpr hsmall)]
  · intro hv hsmall
    rw [hdown hv]
    simp only [adjust_opacity, if_neg (not_lt.mpr hsmall)]
  · have h1 : axis_scroll (1 / 2) b (-1) = adjust_opacity (1 / 2) b OPACITY_STEP := by
      norm_num [axis_scroll]
    rw [h1]
    norm_num [adjust_opacity, qclamp, OPACITY_STEP, f32EPSILON, abs]
  · intro hop
    by_cases hv : v = 0
    · simpa [axis_scroll, hv] using hop
    · rcases lt_or_gt_of_ne hv with hneg | hpos
      · rw [hup hneg]
        simp only [adjust_opacity]
        split
        · exact qclamp_ge _ _ _ (by norm_num)
        · exact hop
      · rw [hdown hpos]
        simp only [adjust_opacity]
        split
        · exact qclamp_ge _ _ _ (by norm_num)
        · exact hop

/-- Witness for `axis_scroll_spec`: one increase notch from 0.50 yields
exactly 0.55 (extracted through the general theorem with its hypotheses
discharged at opacity 0.3, axis value 1). -/
theorem axis_scroll_spec_witness :
    axis_scroll (3 / 10) false 1 = (qclamp (3 / 10 + -OPACITY_STEP) (1 / 10) 1, true) :=
  (axis_scroll_spec (3 / 10) false 1).2.1 (by norm_num)
    (by norm_num [qclamp, OPACITY_STEP, f32EPSILON, abs])

/-- Counterexample to claim C6 as stated: at opacity `0.1 + 2^(-24)` a
decrease notch (positive axis value) should, per the claim, set the clamped
result 0.1; because the change is below `f32::EPSILON` the code leaves the
opacity (≠ 0.1) unchanged. -/
theorem axis_scroll_epsilon_counterexample :
    axis_scroll (1 / 10 + 1 / 2 ^ 24) false 1 = (1 / 10 + 1 / 2 ^ 24, false) ∧
      qclamp (1 / 10 + 1 / 2 ^ 24 + -OPACITY_STEP) (1 / 10) 1 = 1 / 10 ∧
      (1 / 10 + 1 / 2 ^ 24 : ℚ) ≠ 1 / 10 := by
  refine ⟨?_, by norm_num [qclamp, OPACITY_STEP], by norm_num⟩
  have h1 : axis_scroll (1 / 10 + 1 / 2 ^ 24) false 1 =
      adjust_opacity (1 / 10 + 1 / 2 ^ 24) false (-OPACITY_STEP) := by
    norm_num [axis_scroll]
  rw [h1]
  norm_num [adjust_opacity, qclamp, OPACITY_STEP, f32EPSILON, abs]

/-- Claim C7 (amended): after a secondary-button press the context menu
rectangle (anchor, 180 wide, 5 × 25 tall) lies fully inside the viewport
whenever the viewport is at least as large as the menu (width ≥ 180 and
height ≥ 125); a smaller viewport cannot contain it — the anchor is then
clamped to the top-left but the menu overflows. -/
theorem show_context_menu_inside (w h : Nat) (px py : ℚ)
    (hw : (MENU_WIDTH : ℤ) ≤ (w : ℤ))
    (hh : ((MENU_ITEM_COUNT * MENU_ITEM_HEIGHT : Nat) : ℤ) ≤ (h : ℤ)) :
    0 ≤ (show_context_menu w h px py).1 ∧
    (show_context_menu w h px py).1 + (MENU_WIDTH : ℤ) ≤ (w : ℤ) ∧
    0 ≤ (show_context_menu w h px py).2 ∧
    (show_context_menu w h px py).2 +
      ((MENU_ITEM_COUNT * MENU_ITEM_HEIGHT : Nat) : ℤ) ≤ (h : ℤ) := by
  simp only [show_context_menu, MENU_WIDTH, MENU_ITEM_COUNT, MENU_ITEM_HEIGHT] at *
  norm_num at hw hh ⊢
  split_ifs <;> constructor <;> omega

/-- Witness for `show_context_menu_inside` at a 400×400 viewport with the
pointer near the right edge. -/
theorem show_context_menu_inside_witness :
    0 ≤ (show_context_menu 400 400 390 10).1 ∧
    (show_context_menu 400 400 390 10).1 + (MENU_WIDTH : ℤ) ≤ (400 : ℤ) ∧
    0 ≤ (show_context_menu 400 400 390 10).2 ∧
    (show_context_menu 400 400 390 10).2 +
      ((MENU_ITEM_COUNT * MENU_ITEM_HEIGHT : Nat) : ℤ) ≤ (400 : ℤ) :=
  show_context_menu_inside 400 400 390 10 (by norm_num [MENU_WIDTH])
    (by norm_num [MENU_ITEM_COUNT, MENU_ITEM_HEIGHT])

/-- Counterexample to claim C7 as stated: at the minimum 50×50 viewport a
right-click at (10, 10) anchors the menu at (0, 0), and the 180-wide menu
cannot lie inside the 50-wide viewport. -/
theorem show_context_menu_overflow :
    show_context_menu 50 50 10 10 = (0, 0) ∧
      ¬ ((0 : ℤ) + (MENU_WIDTH : ℤ) ≤ (50 : ℤ)) := by
  constructor
  · norm_num [show_context_menu, i32ofQ, truncQ, MENU_WIDTH, MENU_ITEM_COUNT,
      MENU_ITEM_HEIGHT]
  · norm_num [MENU_WIDTH]

theorem u32ofQ_le_nat (x : ℚ) (n : Nat) (h : x ≤ (n : ℚ)) : u32ofQ x ≤ n := by
  unfold u32ofQ truncQ
  split
  · rename_i hx
    have hfl : ⌊x⌋ ≤ (n : ℤ) := by
      have h2 := Int.floor_le_floor h
      simpa using h2
    omega
  · rename_i hx
    have h2 : 0 ≤ ⌊-x⌋ := Int.floor_nonneg.mpr (by linarith [not_le.mp hx])
    omega

theorem u32ofQ_cast_le (x : ℚ) (h : 0 ≤ x) : (u32ofQ x : ℚ) ≤ x := by
  unfold u32ofQ truncQ
  rw [if_pos h]
  have h1 : min (2 ^ 32 - 1) (Int.toNat ⌊x⌋) ≤ Int.toNat ⌊x⌋ := min_le_right _ _
  have h3 : (Int.toNat ⌊x⌋ : ℤ) = ⌊x⌋ := Int.toNat_of_nonneg (Int.floor_nonneg.mpr h)
  have h2 : ((Int.toNat ⌊x⌋ : Nat) : ℚ) = ((⌊x⌋ : ℤ) : ℚ) := by exact_mod_cast h3
  calc ((min (2 ^ 32 - 1) (Int.toNat ⌊x⌋) : Nat) : ℚ)
      ≤ ((Int.toNat ⌊x⌋ : Nat) : ℚ) := by exact_mod_cast h1
    _ = ((⌊x⌋ : ℤ) : ℚ) := h2
    _ ≤ x := Int.floor_le x

theorem sqrtQ_nonneg (q : ℚ) : 0 ≤ sqrtQ q := by
  unfold sqrtQ
  positivity

theorem sqrtQ_sq_le (q : ℚ) (h : 0 ≤ q) : sqrtQ q * sqrtQ q ≤ q := by
  unfold sqrtQ
  rw [div_mul_div_comm, div_le_iff (by positivity)]
  have hm : Nat.sqrt (Int.toNat ⌊q * 2 ^ 48⌋) * Nat.sqrt (Int.toNat ⌊q * 2 ^ 48⌋) ≤
      Int.toNat ⌊q * 2 ^ 48⌋ := Nat.sqrt_le _
  have h0 : (0 : ℚ) ≤ q * 2 ^ 48 := by positivity
  have hm2 : ((Int.toNat ⌊q * 2 ^ 48⌋ : Nat) : ℚ) ≤ q * 2 ^ 48 := by
    have h4 : (Int.toNat ⌊q * 2 ^ 48⌋ : ℤ) = ⌊q * 2 ^ 48⌋ :=
      Int.toNat_of_nonneg (Int.floor_nonneg.mpr h0)
    have h5 : ((Int.toNat ⌊q * 2 ^ 48⌋ : Nat) : ℚ) = ((⌊q * 2 ^ 48⌋ : ℤ) : ℚ) := by
      exact_mod_cast h4
    rw [h5]
    exact Int.floor_le _
  calc (Nat.sqrt (Int.toNat ⌊q * 2 ^ 48⌋) : ℚ) * (Nat.sqrt (Int.toNat ⌊q * 2 ^ 48⌋) : ℚ)
      = ((Nat.sqrt (Int.toNat ⌊q * 2 ^ 48⌋) * Nat.sqrt (Int.toNat ⌊q * 2 ^ 48⌋) : Nat) : ℚ) := by
        push_cast
        ring
    _ ≤ ((Int.toNat ⌊q * 2 ^ 48⌋ : Nat) : ℚ) := by exact_mod_cast hm
    _ ≤ q * 2 ^ 48 := hm2
    _ = q * ((2 : ℚ) ^ 24 * 2 ^ 24) := by norm_num

theorem sqrtQ_tenth_lt_one : sqrtQ (1 / 10) < 1 := by
  by_contra hge
  push_neg at hge
  have h2 := sqrtQ_sq_le (1 / 10) (by norm_num)
  nlinarith [sqrtQ_nonneg (1 / 10)]

/-- Claim C9 (confirmed): at startup, with per-axis limits
`maxW = trunc(screen_w * sqrt(0.10))` and `maxH = trunc(screen_h * sqrt(0.10))`,
the image is shown at native size exactly when both its dimensions are within
the limits; otherwise both dimensions are scaled by the same factor (the
minimum of the two per-axis limit ratios), each result floored and at least
1 pixel; the result never exceeds `max limit 1` per axis, occupies at most
10% of the screen area whenever both limits are at least 1 pixel, fits the
screen, and the margins centre the window on the display to within a pixel. -/
theorem calculate_limited_size_spec (imgW imgH sW sH maxW maxH : Nat)
    (hmw : maxW = u32ofQ ((sW : ℚ) * sqrtQ (1 / 10)))
    (hmh : maxH = u32ofQ ((sH : ℚ) * sqrtQ (1 / 10))) :
    (imgW ≤ maxW ∧ imgH ≤ maxH →
      calculate_limited_size imgW imgH sW sH (1 / 10) = (imgW, imgH)) ∧
    (¬ (imgW ≤ maxW ∧ imgH ≤ maxH) →
      calculate_limited_size imgW imgH sW sH (1 / 10) =
        (max (u32ofQ ((imgW : ℚ) *
            min ((maxW : ℚ) / (imgW : ℚ)) ((maxH : ℚ) / (imgH : ℚ)))) 1,
         max (u32ofQ ((imgH : ℚ) *
            min ((maxW : ℚ) / (imgW : ℚ)) ((maxH : ℚ) / (imgH : ℚ)))) 1)) ∧
    ((calculate_limited_size imgW imgH sW sH (1 / 10)).1 ≤ max maxW 1 ∧
     (calculate_limited_size imgW imgH sW sH (1 / 10)).2 ≤ max maxH 1) ∧
    (1 ≤ maxW → 1 ≤ maxH →
      10 * ((calculate_limited_size imgW imgH sW sH (1 / 10)).1 *
        (calculate_limited_size imgW imgH sW sH (1 / 10)).2) ≤ sW * sH) ∧
    (1 ≤ sW → 1 ≤ sH →
      (calculate_limited_size imgW imgH sW sH (1 / 10)).1 ≤ sW ∧
      (calculate_limited_size imgW imgH sW sH (1 / 10)).2 ≤ sH ∧
      2 * (initial_margins sW sH (calculate_limited_size imgW imgH sW sH (1 / 10)).1
          (calculate_limited_size imgW imgH sW sH (1 / 10)).2).1 ≤
        (sW : ℤ) - (calculate_limited_size imgW imgH sW sH (1 / 10)).1 ∧
      (sW : ℤ) - (calculate_limited_size imgW imgH sW sH (1 / 10)).1 ≤
        2 * (initial_margins sW sH (calculate_limited_size imgW imgH sW sH (1 / 10)).1
          (calculate_limited_size imgW imgH sW sH (1 / 10)).2).1 + 1 ∧
      2 * (initial_margins sW sH (calculate_limited_size imgW imgH sW sH (1 / 10)).1
          (calculate_limited_size imgW imgH sW sH (1 / 10)).2).2 ≤
        (sH : ℤ) - (calculate_limited_size imgW imgH sW sH (1 / 10)).2 ∧
      (sH : ℤ) - (calculate_limited_size imgW imgH sW sH (1 / 10)).2 ≤
        2 * (initial_margins sW sH (calculate_limited_size imgW imgH sW sH (1 / 10)).1
          (calculate_limited_size imgW imgH sW sH (1 / 10)).2).2 + 1) := by
  have hnative : imgW ≤ maxW ∧ imgH ≤ maxH →
      calculate_limited_size imgW imgH sW sH (1 / 10) = (imgW, imgH) := by
    intro hin
    rw [hmw, hmh] at hin
    simp only [calculate_limited_size, if_pos hin]
  have hscaled : ¬ (imgW ≤ maxW ∧ imgH ≤ maxH) →
      calculate_limited_size imgW imgH sW sH (1 / 10) =
        (max (u32ofQ ((imgW : ℚ) *
            min ((maxW : ℚ) / (imgW : ℚ)) ((maxH : ℚ) / (imgH : ℚ)))) 1,
         max (u32ofQ ((imgH : ℚ) *
            min ((maxW : ℚ) / (imgW : ℚ)) ((maxH : ℚ) / (imgH : ℚ)))) 1) := by
    intro hout
    rw [hmw, hmh] at hout
    simp only [calculate_limited_size, if_neg hout]
    rw [hmw, hmh]
  have hbound : ∀ a ma : Nat,
      ((a : ℚ) * ((ma : ℚ) / (a : ℚ)) ≤ (ma : ℚ)) := by
    intro a ma
    rcases Nat.eq_zero_or_pos a with ha | ha
    · subst ha
      simp
    · have hne : ((a : Nat) : ℚ) ≠ 0 := by
        exact_mod_cast Nat.pos_iff_ne_zero.mp ha
      rw [mul_div_cancel₀ _ hne]
  have hsw : (calculate_limited_size imgW imgH sW sH (1 / 10)).1 ≤ max maxW 1 ∧
      (calculate_limited_size imgW imgH sW sH (1 / 10)).2 ≤ max maxH 1 := by
    by_cases hin : imgW ≤ maxW ∧ imgH ≤ maxH
    · rw [hnative hin]
      exact ⟨le_trans hin.1 (le_max_left _ _), le_trans hin.2 (le_max_left _ _)⟩
    · rw [hscaled hin]
      constructor
      · refine max_le ?_ (le_max_right _ _)
        refine le_trans (u32ofQ_le_nat _ maxW ?_) (le_max_left _ _)
        calc (imgW : ℚ) * min ((maxW : ℚ) / (imgW : ℚ)) ((maxH : ℚ) / (imgH : ℚ))
            ≤ (imgW : ℚ) * ((maxW : ℚ) / (imgW : ℚ)) :=
              mul_le_mul_of_nonneg_left (min_le_left _ _) (Nat.cast_nonneg imgW)
          _ ≤ (maxW : ℚ) := hbound imgW maxW
      · refine max_le ?_ (le_max_right _ _)
        refine le_trans (u32ofQ_le_nat _ maxH ?_) (le_max_left _ _)
        calc (imgH : ℚ) * min ((maxW : ℚ) / (imgW : ℚ)) ((maxH : ℚ) / (imgH : ℚ))
            ≤ (imgH : ℚ) * ((maxH : ℚ) / (imgH : ℚ)) :=
              mul_le_mul_of_nonneg_left (min_le_right _ _) (Nat.cast_nonneg imgH)
          _ ≤ (maxH : ℚ) := hbound imgH maxH
  have hmaxlesw : 1 ≤ sW → maxW ≤ sW := by
    intro hsw1
    rw [hmw]
    refine u32ofQ_le_nat _ sW ?_
    calc (sW : ℚ) * sqrtQ (1 / 10) ≤ (sW : ℚ) * 1 :=
        mul_le_mul_of_nonneg_left (le_of_lt sqrtQ_tenth_lt_one) (Nat.cast_nonneg sW)
      _ = (sW : ℚ) := mul_one _
  have hmaxlesh : 1 ≤ sH → maxH ≤ sH := by
    intro hsh1
    rw [hmh]
    refine u32ofQ_le_nat _ sH ?_
    calc (sH : ℚ) * sqrtQ (1 / 10) ≤ (sH : ℚ) * 1 :=
        mul_le_mul_of_nonneg_left (le_of_lt sqrtQ_tenth_lt_one) (Nat.cast_nonneg sH)
      _ = (sH : ℚ) := mul_one _
  refine ⟨hnative, hscaled, hsw, ?_, ?_⟩
  · intro hw1 hh1
    have ht1 : (calculate_limited_size imgW imgH sW sH (1 / 10)).1 ≤ maxW := by
      have := hsw.1
      rwa [max_eq_left hw1] at this
    have ht2 : (calculate_limited_size imgW imgH sW sH (1 / 10)).2 ≤ maxH := by
      have := hsw.2
      rwa [max_eq_left hh1] at this
    have haw : ((maxW : Nat) : ℚ) ≤ (sW : ℚ) * sqrtQ (1 / 10) := by
      rw [hmw]
      exact u32ofQ_cast_le _ (mul_nonneg (Nat.cast_nonneg sW) (sqrtQ_nonneg _))
    have hbw : ((maxH : Nat) : ℚ) ≤ (sH : ℚ) * sqrtQ (1 / 10) := by
      rw [hmh]
      exact u32ofQ_cast_le _ (mul_nonneg (Nat.cast_nonneg sH) (sqrtQ_nonneg _))
    have hq : (10 : ℚ) * ((maxW : ℚ) * (maxH : ℚ)) ≤ (sW : ℚ) * (sH : ℚ) := by
      have hs0 := sqrtQ_nonneg (1 / 10)
      have hss := sqrtQ_sq_le (1 / 10) (by norm_num)
      have h1 : (maxW : ℚ) * (maxH : ℚ) ≤
          ((sW : ℚ) * sqrtQ (1 / 10)) * ((sH : ℚ) * sqrtQ (1 / 10)) :=
        mul_le_mul haw hbw (Nat.cast_nonneg maxH)
          (mul_nonneg (Nat.cast_nonneg sW) hs0)
      have h2 : ((sW : ℚ) * sqrtQ (1 / 10)) * ((sH : ℚ) * sqrtQ (1 / 10)) =
          ((sW : ℚ) * (sH : ℚ)) * (sqrtQ (1 / 10) * sqrtQ (1 / 10)) := by ring
      have h3 : ((sW : ℚ) * (sH : ℚ)) * (sqrtQ (1 / 10) * sqrtQ (1 / 10)) ≤
          ((sW : ℚ) * (sH : ℚ)) * (1 / 10) :=
        mul_le_mul_of_nonneg_left hss
          (mul_nonneg (Nat.cast_nonneg sW) (Nat.cast_nonneg sH))
      linarith
    have hn : 10 * (maxW * maxH) ≤ sW * sH := by exact_mod_cast hq
    calc 10 * ((calculate_limited_size imgW imgH sW sH (1 / 10)).1 *
          (calculate_limited_size imgW imgH sW sH (1 / 10)).2)
        ≤ 10 * (maxW * maxH) :=
          Nat.mul_le_mul_left 10 (Nat.mul_le_mul ht1 ht2)
      _ ≤ sW * sH := hn
  · intro hsw1 hsh1
    have ht1 : (calculate_limited_size imgW imgH sW sH (1 / 10)).1 ≤ sW :=
      le_trans hsw.1 (max_le (hmaxlesw hsw1) hsw1)
    have ht2 : (calculate_limited_size imgW imgH sW sH (1 / 10)).2 ≤ sH :=
      le_trans hsw.2 (max_le (hmaxlesh hsh1) hsh1)
    refine ⟨ht1, ht2, ?_, ?_, ?_, ?_⟩ <;>
      simp only [initial_margins] <;> omega

theorem nat_le_u32ofQ (n : Nat) (x : ℚ) (h : (n : ℚ) ≤ x)
    (hn : n ≤ 2 ^ 32 - 1) : n ≤ u32ofQ x := by
  have hx0 : (0 : ℚ) ≤ x := le_trans (Nat.cast_nonneg n) h
  unfold u32ofQ truncQ
  rw [if_pos hx0]
  have hfl : (n : ℤ) ≤ ⌊x⌋ := Int.le_floor.mpr (by exact_mod_cast h)
  omega

theorem sqrtQ_tenth_ge_eighth : (1 : ℚ) / 8 ≤ sqrtQ (1 / 10) := by
  unfold sqrtQ
  have hM : Int.toNat ⌊(1 / 10 : ℚ) * 2 ^ 48⌋ = 28147497671065 := by
    norm_num
    rfl
  rw [hM]
  have hsq : 2097152 ≤ Nat.sqrt 28147497671065 :=
    Nat.le_sqrt.mpr (by norm_num)
  calc (1 : ℚ) / 8 = (2097152 : ℚ) / 2 ^ 24 := by norm_num
    _ ≤ (Nat.sqrt 28147497671065 : ℚ) / 2 ^ 24 := by
        apply (div_le_div_right (by norm_num)).mpr
        exact_mod_cast hsq

/-- Witness for `calculate_limited_size_spec` on a 1920×1080 display with a
100×100 image (native case: 100 is within both limits, shown unscaled). -/
theorem calculate_limited_size_spec_witness :
    calculate_limited_size 100 100 1920 1080 (1 / 10) = (100, 100) := by
  have h := (calculate_limited_size_spec 100 100 1920 1080
    (u32ofQ ((1920 : ℚ) * sqrtQ (1 / 10)))
    (u32ofQ ((1080 : ℚ) * sqrtQ (1 / 10))) rfl rfl).1
  refine h ⟨?_, ?_⟩
  · refine nat_le_u32ofQ 100 _ ?_ (by norm_num)
    calc (100 : ℚ) ≤ 1920 * (1 / 8) := by norm_num
      _ ≤ 1920 * sqrtQ (1 / 10) :=
          mul_le_mul_of_nonneg_left sqrtQ_tenth_ge_eighth (by norm_num)
  · refine nat_le_u32ofQ 100 _ ?_ (by norm_num)
    calc (100 : ℚ) ≤ 1080 * (1 / 8) := by norm_num
      _ ≤ 1080 * sqrtQ (1 / 10) :=
          mul_le_mul_of_nonneg_left sqrtQ_tenth_ge_eighth (by norm_num)

end Rspin
